import Mathlib

/-!
# Plugin slot table of `dl_driver_1.c`

A shallow embedding of the plugin driver: the slot table `plugin_slots`, the
operations `load_plugin`, `load_command`, `unload_plugin` and `run_plugin`, and
the dynamic loader (`dlopen`, `dlsym`, `dlclose`, `dlerror`) as an arbitrary
state machine the operations call into.

Pointers are natural numbers with `0` for `NULL`; bytes are natural numbers;
the `int` slot numbers are integers.  Every operation returns the table and the
loader state it leaves behind together with the ordered record of what it did
(loader calls, entry point calls, lines printed).
-/

set_option autoImplicit false

namespace DlDriver

/-! ## `dltutorial.h` -/

/-- Length of the `name` array of a slot. -/
def PLUGIN_NAME_LEN : Nat := 16

/-- Number of entries of `plugin_slots`. -/
def MAX_PLUGINS : Nat := 4

/-- The record `struct _plugin`: the 16 bytes of `name`, the loader handle and
the address of the plugin function (`0` is `NULL`). -/
structure plugin where
  name : List Nat
  handle : Nat
  func : Nat
  deriving DecidableEq, Repr

/-- A `plugin` whose `sizeof(plugin)` bytes are all zero: what the zero
initialised global holds in each entry and what
`memset(&plugin_slots[slot], 0x00, sizeof(plugin))` leaves. -/
def zeroed : plugin := ⟨List.replicate PLUGIN_NAME_LEN 0, 0, 0⟩

/-- The global `plugin_slots` at program start. -/
def initial_slots : List plugin := List.replicate MAX_PLUGINS zeroed

/-! ## The C library calls on byte buffers -/

/-- `memset(buf, c, n)`: the first `n` bytes of `buf` become `c`. -/
def memset (buf : List Nat) (c n : Nat) : List Nat :=
  List.replicate n c ++ buf.drop n

/-- The `n` bytes `strncpy` stores: bytes of `src` up to its terminator, then
zero bytes up to `n`.  `src` lists the bytes found at the source address; a
zero byte, or the end of the list, is the terminator. -/
def strncpy_bytes : List Nat → Nat → List Nat
  | _, 0 => []
  | [], n + 1 => 0 :: strncpy_bytes [] n
  | c :: cs, n + 1 =>
    if c = 0 then 0 :: strncpy_bytes [] n else c :: strncpy_bytes cs n

/-- `strncpy(dst, src, n)`: exactly `n` bytes of `dst` are overwritten. -/
def strncpy (dst src : List Nat) (n : Nat) : List Nat :=
  strncpy_bytes src n ++ dst.drop n

/-- `strchr(s, c)` as the offset of the first `c` in `s`. -/
def strchr : List Char → Char → Option Nat
  | [], _ => none
  | x :: xs, c => if x = c then some 0 else (strchr xs c).map (· + 1)

/-! ## The dynamic loader -/

/-- The dynamic loader as a state machine over a state `σ` of its own.  Each
call returns its C result and the next state.  `cstr` reads the bytes stored at
an address, `call` runs the plugin code at an address. -/
structure DL (σ : Type) where
  dlopen : σ → String → Nat × σ
  dlsym : σ → Nat → String → Nat × σ
  dlclose : σ → Nat → Int × σ
  dlerror : σ → String × σ
  cstr : σ → Nat → List Nat
  call : σ → Nat → σ

/-- The lines the driver prints, one constructor per `printf`. -/
inductive Msg where
  | openFailed (file : String) (err : String)
  | funcNotFound (err : String)
  | nameNotFound (err : String)
  | willLoad (file : String) (slot : Int)
  | loadFailed
  | invalidSlot (slot : Int)
  | notLoaded (slot : Int)
  | closeFailed (name : List Nat) (err : String)
  | noFunction
  deriving DecidableEq, Repr

/-- What an operation does to the outside, in order.  `oob slot` records an
access to `plugin_slots[slot]` outside the array, which C leaves undefined. -/
inductive Event where
  | dlopen (file : String) (res : Nat)
  | dlsym (handle : Nat) (sym : String) (res : Nat)
  | dlclose (handle : Nat) (res : Int)
  | dlerror (res : String)
  | call (f : Nat)
  | print (m : Msg)
  | oob (slot : Int)
  deriving DecidableEq, Repr

/-- Result of one operation: the table, the loader state, the record of the
call and the C return value. -/
structure Outcome (σ α : Type) where
  slots : List plugin
  dl : σ
  log : List Event
  ret : α

/-- The entry `plugin_slots[slot]`, when `slot` is inside the array. -/
def slot_at (t : List plugin) (slot : Int) : Option plugin :=
  if 0 ≤ slot then t[slot.toNat]? else none

/-! ## `dl_driver_1.c` -/

/-- `load_plugin(file, slot)`: returns 1 on successful load, 0 on failure.
A store to a `slot` outside the array is recorded as `oob` and leaves the table
as it is. -/
def load_plugin {σ : Type} (D : DL σ) (t : List plugin) (s : σ)
    (file : String) (slot : Int) : Outcome σ Int :=
  let o := D.dlopen s file
  let handle := o.1
  if handle = 0 then
    let e := D.dlerror o.2
    ⟨t, e.2, [.dlopen file handle, .dlerror e.1, .print (.openFailed file e.1)], 0⟩
  else
    let f := D.dlsym o.2 handle "func"
    let func := f.1
    if func = 0 then
      let e := D.dlerror f.2
      let c := D.dlclose e.2 handle
      ⟨t, c.2,
        [.dlopen file handle, .dlsym handle "func" func, .dlerror e.1,
          .print (.funcNotFound e.1), .dlclose handle c.1], 0⟩
    else
      let n := D.dlsym f.2 handle "plugin_name"
      let name := n.1
      if name = 0 then
        let e := D.dlerror n.2
        let c := D.dlclose e.2 handle
        ⟨t, c.2,
          [.dlopen file handle, .dlsym handle "func" func,
            .dlsym handle "plugin_name" name, .dlerror e.1,
            .print (.nameNotFound e.1), .dlclose handle c.1], 0⟩
      else
        match slot_at t slot with
        | none =>
          ⟨t, n.2,
            [.dlopen file handle, .dlsym handle "func" func,
              .dlsym handle "plugin_name" name, .oob slot], 1⟩
        | some p =>
          let p1 := { p with handle := handle }
          let p2 := { p1 with func := func }
          let p3 := { p2 with name := memset p2.name 0x00 PLUGIN_NAME_LEN }
          let p4 := { p3 with name := strncpy p3.name (D.cstr n.2 name) PLUGIN_NAME_LEN }
          ⟨t.set slot.toNat p4, n.2,
            [.dlopen file handle, .dlsym handle "func" func,
              .dlsym handle "plugin_name" name], 1⟩

/-- The loop of `load_command` that determines the next available slot, from
`i` on with `n` iterations left (`n = MAX_PLUGINS - i`): the value of `i` when
the loop is left. -/
def next_free_from (t : List plugin) : Nat → Nat → Nat
  | 0, i => i
  | n + 1, i =>
    match t[i]? with
    | some p => if p.handle ≠ 0 then next_free_from t n (i + 1) else i
    | none => i

/-- The value of `i` after the `for (i = 0; i < MAX_PLUGINS; i++)` loop of
`load_command`. -/
def next_free (t : List plugin) : Nat := next_free_from t MAX_PLUGINS 0

/-- `load_command(args)`.  `strtol` is the C library conversion of the text
after the separator, already narrowed to `int`. -/
def load_command {σ : Type} (D : DL σ) (strtol : List Char → Int)
    (t : List plugin) (s : σ) (args : List Char) : Outcome σ Unit :=
  let sep_char := strchr args ' '
  let filename : List Char :=
    match sep_char with
    | some k => args.take k
    | none => args.dropLast
  let slotnum : Int :=
    match sep_char with
    | some k => strtol (args.drop (k + 1))
    | none => (next_free t : Int)
  let r := load_plugin D t s (String.mk filename) slotnum
  if r.ret = 0 then
    ⟨r.slots, r.dl,
      .print (.willLoad (String.mk filename) slotnum) :: r.log ++ [.print .loadFailed], ()⟩
  else
    ⟨r.slots, r.dl, .print (.willLoad (String.mk filename) slotnum) :: r.log, ()⟩

/-- `unload_plugin(slot)`. -/
def unload_plugin {σ : Type} (D : DL σ) (t : List plugin) (s : σ)
    (slot : Int) : Outcome σ Unit :=
  if slot < 0 ∨ slot ≥ MAX_PLUGINS then
    ⟨t, s, [.print (.invalidSlot slot)], ()⟩
  else
    match slot_at t slot with
    | none => ⟨t, s, [.oob slot], ()⟩
    | some p =>
      if p.func = 0 then
        ⟨t, s, [.print (.notLoaded slot)], ()⟩
      else
        let c := D.dlclose s p.handle
        if c.1 ≠ 0 then
          let e := D.dlerror c.2
          ⟨t, e.2,
            [.dlclose p.handle c.1, .dlerror e.1, .print (.closeFailed p.name e.1)], ()⟩
        else
          ⟨t.set slot.toNat zeroed, c.2, [.dlclose p.handle c.1], ()⟩

/-- `run_plugin(slot)`.  A read of a `slot` outside the array is recorded as
`oob` and nothing more is modelled of the call. -/
def run_plugin {σ : Type} (D : DL σ) (t : List plugin) (s : σ)
    (slot : Int) : Outcome σ Unit :=
  match slot_at t slot with
  | none => ⟨t, s, [.oob slot], ()⟩
  | some p =>
    let f := p.func
    if f = 0 then
      ⟨t, s, [.print .noFunction], ()⟩
    else
      ⟨t, D.call s f, [.call f], ()⟩

/-! ## A mock loader and sample tables for concrete runs -/

/-- A mock dynamic loader whose state is the list of handles now open.
`pluginA.so` (handle 1) exports `func` and the name `PluginA`; `nofunc.so`
(handle 2) exports neither; `noname.so` (handle 3) exports only `func`;
`long.so` (handle 4) exports `func` and an 18 byte name; no other file opens.
The symbols of handle `h` are at `16 * h + 1` and `16 * h + 2`. -/
def mockDL : DL (List Nat) where
  dlopen s file :=
    if file = "pluginA.so" then (1, 1 :: s)
    else if file = "nofunc.so" then (2, 2 :: s)
    else if file = "noname.so" then (3, 3 :: s)
    else if file = "long.so" then (4, 4 :: s)
    else (0, s)
  dlsym s h sym :=
    if sym = "func" then (if h = 1 ∨ h = 3 ∨ h = 4 then 16 * h + 1 else 0, s)
    else if sym = "plugin_name" then (if h = 1 ∨ h = 4 then 16 * h + 2 else 0, s)
    else (0, s)
  dlclose s h := if h ∈ s then (0, s.erase h) else (-1, s)
  dlerror s := ("dl error", s)
  cstr _ a :=
    if a = 18 then [80, 108, 117, 103, 105, 110, 65]
    else if a = 66 then [65, 66, 67, 68, 69, 70, 71, 72, 73, 74, 75, 76, 77, 78, 79, 80, 81, 82]
    else []
  call s _ := s

/-- A slot holding a loaded plugin with handle `h`. -/
def loaded (h : Nat) : plugin := ⟨List.replicate PLUGIN_NAME_LEN 120, h, 16 * h + 1⟩

/-- The table `[loaded, empty, loaded, empty]`. -/
def mixed_slots : List plugin := [loaded 1, zeroed, loaded 4, zeroed]

/-- A table with no empty slot. -/
def full_slots : List plugin := [loaded 1, loaded 4, loaded 1, loaded 4]

/-! ## Counting loader calls in a record -/

/-- Number of successful `dlopen` calls in a record. -/
def opens (log : List Event) : Nat :=
  log.countP fun e => match e with
    | .dlopen _ res => res != 0
    | _ => false

/-- Number of `dlclose` calls in a record. -/
def closes (log : List Event) : Nat :=
  log.countP fun e => match e with
    | .dlclose _ _ => true
    | _ => false

/-! ## Sequences of operations -/

/-- One request to the slot table. -/
inductive Op where
  | load (file : String) (slot : Int)
  | unload (slot : Int)
  | run (slot : Int)
  deriving DecidableEq, Repr

/-- The slot number an operation names. -/
def Op.slot : Op → Int
  | .load _ i => i
  | .unload i => i
  | .run i => i

/-- Table and loader state after one operation. -/
def step {σ : Type} (D : DL σ) (w : List plugin × σ) : Op → List plugin × σ
  | .load file slot => ((load_plugin D w.1 w.2 file slot).slots, (load_plugin D w.1 w.2 file slot).dl)
  | .unload slot => ((unload_plugin D w.1 w.2 slot).slots, (unload_plugin D w.1 w.2 slot).dl)
  | .run slot => ((run_plugin D w.1 w.2 slot).slots, (run_plugin D w.1 w.2 slot).dl)

/-- Table and loader state after a sequence of operations, first one first. -/
def run_ops {σ : Type} (D : DL σ) (w : List plugin × σ) (ops : List Op) : List plugin × σ :=
  ops.foldl (step D) w

/-- The table has `MAX_PLUGINS` entries and in each the handle is null exactly
when the function pointer is. -/
def slots_ok (t : List plugin) : Prop :=
  t.length = MAX_PLUGINS ∧ ∀ p ∈ t, (p.handle = 0 ↔ p.func = 0)

/-! ## General facts about the operations -/

/-- Storing into an entry the value it already holds changes nothing. -/
theorem set_same (t : List plugin) (i : Nat) (p : plugin) (h : t[i]? = some p) :
    t.set i p = t := by
  induction t generalizing i with
  | nil => rfl
  | cons x xs ih =>
    cases i with
    | zero =>
      simp only [List.getElem?_cons_zero, Option.some.injEq] at h
      simp [h]
    | succ j =>
      simp only [List.getElem?_cons_succ] at h
      simp [ih j h]

theorem slot_at_of_range (t : List plugin) (slot : Int) (hlen : t.length = MAX_PLUGINS)
    (hlo : 0 ≤ slot) (hhi : slot < MAX_PLUGINS) :
    slot.toNat < t.length ∧ ∃ p, slot_at t slot = some p ∧ t[slot.toNat]? = some p := by
  have hlt : slot.toNat < t.length := by
    rw [hlen]; omega
  refine ⟨hlt, t[slot.toNat], ?_, ?_⟩
  · simp [slot_at, hlo, List.getElem?_eq_getElem hlt]
  · simp [List.getElem?_eq_getElem hlt]

theorem slot_at_some (t : List plugin) (slot : Int) (p : plugin)
    (hp : slot_at t slot = some p) :
    0 ≤ slot ∧ slot.toNat < t.length ∧ t[slot.toNat]? = some p := by
  unfold slot_at at hp
  split at hp
  · next h =>
    refine ⟨h, ?_, hp⟩
    by_contra hge
    rw [List.getElem?_eq_none (by omega)] at hp
    cases hp
  · cases hp

/-- A failed `load_plugin` leaves the table as it was. -/
theorem load_plugin_ret_zero {σ : Type} (D : DL σ) (t : List plugin) (s : σ)
    (file : String) (slot : Int) (h : (load_plugin D t s file slot).ret = 0) :
    (load_plugin D t s file slot).slots = t := by
  unfold load_plugin at h ⊢
  simp only []
  split_ifs
  · rfl
  · rfl
  · rfl
  · rename_i h1 h2 h3
    simp only [h1, h2, h3, if_false] at h
    split at h <;> simp at h

/-- The return value of `load_plugin` is 0 or 1. -/
theorem load_plugin_ret {σ : Type} (D : DL σ) (t : List plugin) (s : σ)
    (file : String) (slot : Int) :
    (load_plugin D t s file slot).ret = 0 ∨ (load_plugin D t s file slot).ret = 1 := by
  unfold load_plugin
  simp only []
  split_ifs
  · left; rfl
  · left; rfl
  · left; rfl
  · right; split <;> rfl

/-- What `load_plugin` does when the loader opens the file and resolves both
symbols and the slot is inside the table. -/
theorem load_plugin_success {σ : Type} (D : DL σ) (t : List plugin) (s s1 s2 s3 : σ)
    (file : String) (slot : Int) (p : plugin) (h f a : Nat)
    (hp : slot_at t slot = some p)
    (ho : D.dlopen s file = (h, s1)) (hh : h ≠ 0)
    (hf : D.dlsym s1 h "func" = (f, s2)) (hfn : f ≠ 0)
    (hn : D.dlsym s2 h "plugin_name" = (a, s3)) (han : a ≠ 0) :
    load_plugin D t s file slot =
      ⟨t.set slot.toNat
          ⟨strncpy (memset p.name 0 PLUGIN_NAME_LEN) (D.cstr s3 a) PLUGIN_NAME_LEN, h, f⟩,
        s3, [.dlopen file h, .dlsym h "func" f, .dlsym h "plugin_name" a], 1⟩ := by
  unfold load_plugin
  simp only [ho, hf, hn, hh, hfn, han, if_false, hp]

/-- A successful `load_plugin` into a slot of the table stores a non-null
handle, the one `dlopen` returned, and a non-null function pointer. -/
theorem load_plugin_ret_one {σ : Type} (D : DL σ) (t : List plugin) (s : σ)
    (file : String) (slot : Int) (p : plugin) (hp : slot_at t slot = some p)
    (h : (load_plugin D t s file slot).ret = 1) :
    ∃ q, (load_plugin D t s file slot).slots = t.set slot.toNat q ∧
      q.handle = (D.dlopen s file).1 ∧ q.handle ≠ 0 ∧ q.func ≠ 0 := by
  unfold load_plugin at h ⊢
  simp only [] at h ⊢
  split_ifs at h ⊢
  · simp at h
  · simp at h
  · simp at h
  · rename_i h1 h2 h3
    simp only [hp]
    exact ⟨_, rfl, rfl, h1, h2⟩

/-! ## Failed loads -/

/-- C1: a failed `load_plugin` (return value 0) on a slot of the table leaves
the whole table as it was and closes as many handles as it opened: either
`dlopen` failed and the call made no successful open and no close, or `dlopen`
succeeded, one of the two symbols was not found, and the call made one
successful open and one close. -/
theorem load_plugin_failure_atomic {σ : Type} (D : DL σ) (t : List plugin) (s : σ)
    (file : String) (slot : Int) (hlen : t.length = MAX_PLUGINS)
    (hlo : 0 ≤ slot) (hhi : slot < MAX_PLUGINS)
    (hfail : (load_plugin D t s file slot).ret = 0) :
    (load_plugin D t s file slot).slots = t ∧
    closes (load_plugin D t s file slot).log = opens (load_plugin D t s file slot).log ∧
    (((D.dlopen s file).1 = 0 ∧
        opens (load_plugin D t s file slot).log = 0 ∧
        closes (load_plugin D t s file slot).log = 0) ∨
      ((D.dlopen s file).1 ≠ 0 ∧
        ((D.dlsym (D.dlopen s file).2 (D.dlopen s file).1 "func").1 = 0 ∨
          (D.dlsym (D.dlsym (D.dlopen s file).2 (D.dlopen s file).1 "func").2
            (D.dlopen s file).1 "plugin_name").1 = 0) ∧
        opens (load_plugin D t s file slot).log = 1 ∧
        closes (load_plugin D t s file slot).log = 1)) := by
  refine ⟨load_plugin_ret_zero D t s file slot hfail, ?_⟩
  obtain ⟨-, p, hp, -⟩ := slot_at_of_range t slot hlen hlo hhi
  unfold load_plugin at hfail ⊢
  simp only [] at hfail ⊢
  split_ifs at hfail ⊢
  · rename_i h1
    simp [opens, closes, h1]
  · rename_i h1 h2
    simp [opens, closes, h1, h2]
  · rename_i h1 h2 h3
    simp [opens, closes, h1, h2, h3]
  · rename_i h1 h2 h3
    simp [hp] at hfail

/-- C1 on the mock loader: `noname.so` opens but lacks `plugin_name`. -/
theorem load_plugin_failure_atomic_witness :
    (load_plugin mockDL mixed_slots [] "noname.so" 1).ret = 0 ∧
    (load_plugin mockDL mixed_slots [] "noname.so" 1).slots = mixed_slots ∧
    closes (load_plugin mockDL mixed_slots [] "noname.so" 1).log = 1 ∧
    opens (load_plugin mockDL mixed_slots [] "noname.so" 1).log = 1 :=
  have h := load_plugin_failure_atomic mockDL mixed_slots [] "noname.so" 1
    (by decide) (by decide) (by decide) (by decide)
  ⟨by decide, h.1, by decide, by decide⟩

/-! ## Unload and run -/

/-- What `unload_plugin` does on a slot of the table whose function pointer
is set and whose handle the loader closes. -/
theorem unload_plugin_success {σ : Type} (D : DL σ) (t : List plugin) (s : σ)
    (slot : Int) (p : plugin) (hhi : slot < MAX_PLUGINS)
    (hp : slot_at t slot = some p) (hfunc : p.func ≠ 0)
    (hclose : (D.dlclose s p.handle).1 = 0) :
    unload_plugin D t s slot =
      ⟨t.set slot.toNat zeroed, (D.dlclose s p.handle).2, [.dlclose p.handle 0], ()⟩ := by
  have hlo := (slot_at_some t slot p hp).1
  unfold unload_plugin
  have hg : ¬ (slot < 0 ∨ slot ≥ (MAX_PLUGINS : Int)) := by omega
  simp only [hg, if_false, hp, hfunc, hclose, ne_eq, not_true_eq_false]

/-- C6: `unload_plugin` on a slot of the table whose function pointer is null
prints the not-loaded line and does nothing else: no loader call, the table and
the loader state as before. -/
theorem unload_plugin_not_loaded {σ : Type} (D : DL σ) (t : List plugin) (s : σ)
    (slot : Int) (p : plugin) (hlo : 0 ≤ slot) (hhi : slot < MAX_PLUGINS)
    (hp : slot_at t slot = some p) (hfunc : p.func = 0) :
    unload_plugin D t s slot = ⟨t, s, [.print (.notLoaded slot)], ()⟩ ∧
    closes (unload_plugin D t s slot).log = 0 := by
  have hg : ¬ (slot < 0 ∨ slot ≥ (MAX_PLUGINS : Int)) := by omega
  have h : unload_plugin D t s slot = ⟨t, s, [.print (.notLoaded slot)], ()⟩ := by
    unfold unload_plugin
    simp only [hg, if_false, hp, hfunc, if_true]
  rw [h]
  exact ⟨rfl, by simp [closes]⟩

/-- C6 on the table `[loaded, empty, loaded, empty]`, slot 3. -/
theorem unload_plugin_not_loaded_witness :
    unload_plugin mockDL mixed_slots [1, 4] 3 =
      ⟨mixed_slots, [1, 4], [.print (.notLoaded 3)], ()⟩ ∧
    closes (unload_plugin mockDL mixed_slots [1, 4] 3).log = 0 :=
  unload_plugin_not_loaded mockDL mixed_slots [1, 4] 3 zeroed
    (by decide) (by decide) (by decide) (by decide)

/-- C9: on a slot of the table, `run_plugin` prints the no-function line and
calls nothing when the slot's function pointer is null, and otherwise calls
exactly that function once; either way the table is unchanged and no loader
call is made.  After a successful load into the slot and a successful unload
of it, `run_plugin` prints the no-function line. -/
theorem run_plugin_spec {σ : Type} (D : DL σ) (t : List plugin) (s : σ)
    (slot : Int) (p : plugin) (hlen : t.length = MAX_PLUGINS)
    (hlo : 0 ≤ slot) (hhi : slot < MAX_PLUGINS) (hp : slot_at t slot = some p) :
    (p.func = 0 → run_plugin D t s slot = ⟨t, s, [.print .noFunction], ()⟩) ∧
    (p.func ≠ 0 → run_plugin D t s slot = ⟨t, D.call s p.func, [.call p.func], ()⟩) ∧
    (∀ file : String, (load_plugin D t s file slot).ret = 1 →
      (∃ h, (unload_plugin D (load_plugin D t s file slot).slots
          (load_plugin D t s file slot).dl slot).log = [.dlclose h 0]) →
      run_plugin D
          (unload_plugin D (load_plugin D t s file slot).slots
            (load_plugin D t s file slot).dl slot).slots
          (unload_plugin D (load_plugin D t s file slot).slots
            (load_plugin D t s file slot).dl slot).dl slot =
        ⟨(unload_plugin D (load_plugin D t s file slot).slots
            (load_plugin D t s file slot).dl slot).slots,
          (unload_plugin D (load_plugin D t s file slot).slots
            (load_plugin D t s file slot).dl slot).dl,
          [.print .noFunction], ()⟩) := by
  refine ⟨?_, ?_, ?_⟩
  · intro hf
    unfold run_plugin
    simp only [hp, hf, if_true]
  · intro hf
    unfold run_plugin
    simp only [hp, hf, if_false]
  · intro file hload hun
    obtain ⟨q, hq, -, hqh, hqf⟩ := load_plugin_ret_one D t s file slot p hp hload
    obtain ⟨hlt, -⟩ := slot_at_of_range t slot hlen hlo hhi
    have hq2 : slot_at (load_plugin D t s file slot).slots slot = some q := by
      rw [hq]
      simp [slot_at, hlo, hlt]
    have hg : ¬ (slot < 0 ∨ slot ≥ (MAX_PLUGINS : Int)) := by omega
    obtain ⟨h, hlog⟩ := hun
    have hc : (D.dlclose (load_plugin D t s file slot).dl q.handle).1 = 0 := by
      by_contra hne
      unfold unload_plugin at hlog
      simp only [hg, if_false, hq2, hqf, ne_eq, hne, not_false_eq_true, if_true] at hlog
      simp at hlog
    rw [unload_plugin_success D _ _ slot q hhi hq2 hqf hc]
    unfold run_plugin
    have hz : slot_at ((load_plugin D t s file slot).slots.set slot.toNat zeroed) slot
        = some zeroed := by
      rw [hq]
      simp [slot_at, hlo, hlt]
    simp only [hz]
    simp [zeroed]

/-- C9 on the mock loader: slot 1 of `[loaded, empty, loaded, empty]` has no
function, and still has none after `pluginA.so` is loaded into it and unloaded
again. -/
theorem run_plugin_spec_witness :
    run_plugin mockDL mixed_slots [1, 4] 1 =
      ⟨mixed_slots, [1, 4], [.print .noFunction], ()⟩ ∧
    (load_plugin mockDL mixed_slots [1, 4] "pluginA.so" 1).ret = 1 ∧
    (unload_plugin mockDL (load_plugin mockDL mixed_slots [1, 4] "pluginA.so" 1).slots
      (load_plugin mockDL mixed_slots [1, 4] "pluginA.so" 1).dl 1).log = [.dlclose 1 0] ∧
    (run_plugin mockDL
      (unload_plugin mockDL (load_plugin mockDL mixed_slots [1, 4] "pluginA.so" 1).slots
        (load_plugin mockDL mixed_slots [1, 4] "pluginA.so" 1).dl 1).slots
      (unload_plugin mockDL (load_plugin mockDL mixed_slots [1, 4] "pluginA.so" 1).slots
        (load_plugin mockDL mixed_slots [1, 4] "pluginA.so" 1).dl 1).dl 1).log =
      [.print .noFunction] :=
  have h := run_plugin_spec mockDL mixed_slots [1, 4] 1 zeroed
    (by decide) (by decide) (by decide) (by decide)
  ⟨h.1 (by decide), by decide, by decide,
    congrArg Outcome.log (h.2.2 "pluginA.so" (by decide) ⟨1, by decide⟩)⟩

/-! ## Load followed by unload -/

/-- C7: when slot `slot` of the table is all zero, `load_plugin` into it
succeeds and the loader then closes the handle, `load_plugin` followed by
`unload_plugin` gives back the table there was before the load. -/
theorem load_unload_round_trip {σ : Type} (D : DL σ) (t : List plugin) (s : σ)
    (file : String) (slot : Int) (hlen : t.length = MAX_PLUGINS)
    (hlo : 0 ≤ slot) (hhi : slot < MAX_PLUGINS)
    (hempty : slot_at t slot = some zeroed)
    (hload : (load_plugin D t s file slot).ret = 1)
    (hclose : (D.dlclose (load_plugin D t s file slot).dl (D.dlopen s file).1).1 = 0) :
    (unload_plugin D (load_plugin D t s file slot).slots
      (load_plugin D t s file slot).dl slot).slots = t ∧
    (unload_plugin D (load_plugin D t s file slot).slots
      (load_plugin D t s file slot).dl slot).log = [.dlclose (D.dlopen s file).1 0] := by
  obtain ⟨q, hq, hqo, -, hqf⟩ := load_plugin_ret_one D t s file slot zeroed hempty hload
  obtain ⟨hlt, -⟩ := slot_at_of_range t slot hlen hlo hhi
  have hq2 : slot_at (load_plugin D t s file slot).slots slot = some q := by
    rw [hq]
    simp [slot_at, hlo, hlt]
  rw [← hqo] at hclose
  rw [unload_plugin_success D _ _ slot q hhi hq2 hqf hclose, hq, hqo]
  refine ⟨?_, rfl⟩
  simp only [List.set_set]
  have hz : t[slot.toNat]? = some zeroed := (slot_at_some t slot zeroed hempty).2.2
  exact set_same t slot.toNat zeroed hz

/-- C7 on the mock loader: `pluginA.so` into slot 3 of
`[loaded, empty, loaded, empty]` and out again. -/
theorem load_unload_round_trip_witness :
    (load_plugin mockDL mixed_slots [] "pluginA.so" 3).slots ≠ mixed_slots ∧
    (unload_plugin mockDL (load_plugin mockDL mixed_slots [] "pluginA.so" 3).slots
      (load_plugin mockDL mixed_slots [] "pluginA.so" 3).dl 3).slots = mixed_slots :=
  ⟨by decide,
    (load_unload_round_trip mockDL mixed_slots [] "pluginA.so" 3
      (by decide) (by decide) (by decide) (by decide) (by decide) (by decide)).1⟩

/-! ## The next free slot -/

/-- The scan from `i` stops at the first entry at or after `i` whose handle is
null, or at the end of the table. -/
theorem next_free_from_spec (t : List plugin) :
    ∀ n i : Nat, i + n = t.length →
      i ≤ next_free_from t n i ∧ next_free_from t n i ≤ i + n ∧
      (∀ j, i ≤ j → j < next_free_from t n i → ∃ q, t[j]? = some q ∧ q.handle ≠ 0) ∧
      (next_free_from t n i < i + n →
        ∃ p, t[next_free_from t n i]? = some p ∧ p.handle = 0) := by
  intro n
  induction n with
  | zero =>
    intro i _
    simp only [next_free_from]
    refine ⟨le_refl _, le_refl _, ?_, ?_⟩
    · intro j h1 h2; omega
    · intro h; omega
  | succ n ih =>
    intro i hi
    have hlt : i < t.length := by omega
    have hget : t[i]? = some t[i] := List.getElem?_eq_getElem hlt
    by_cases hh : t[i].handle = 0
    · have hr : next_free_from t (n + 1) i = i := by
        simp only [next_free_from, hget, hh, ne_eq, not_true_eq_false, if_false]
      rw [hr]
      refine ⟨le_refl _, by omega, ?_, ?_⟩
      · intro j h1 h2; omega
      · intro _; exact ⟨t[i], hget, hh⟩
    · have hr : next_free_from t (n + 1) i = next_free_from t n (i + 1) := by
        simp only [next_free_from, hget, hh, ne_eq, not_false_eq_true, if_true]
      rw [hr]
      obtain ⟨h1, h2, h3, h4⟩ := ih (i + 1) (by omega)
      refine ⟨by omega, by omega, ?_, ?_⟩
      · intro j hj1 hj2
        by_cases hji : j = i
        · subst hji; exact ⟨t[j], hget, hh⟩
        · exact h3 j (by omega) hj2
      · intro hlt2; exact h4 (by omega)

/-- C4: in a table with at least one null handle, the scan of `load_command`
for the next free slot stops at an index below `MAX_PLUGINS` whose handle is
null while every lower index has a non-null handle; this index is the slot
number `load_command` announces and passes to `load_plugin` when its argument
has no separator. -/
theorem next_free_lowest_empty (t : List plugin) (hlen : t.length = MAX_PLUGINS)
    (hex : ∃ p ∈ t, p.handle = 0) :
    next_free t < MAX_PLUGINS ∧
    (∃ p, t[next_free t]? = some p ∧ p.handle = 0) ∧
    (∀ j, j < next_free t → ∃ q, t[j]? = some q ∧ q.handle ≠ 0) ∧
    (∀ (σ : Type) (D : DL σ) (strtol : List Char → Int) (s : σ) (args : List Char),
      strchr args ' ' = none →
      (load_command D strtol t s args).log.head? =
          some (.print (.willLoad (String.mk args.dropLast) (next_free t))) ∧
        (load_command D strtol t s args).slots =
          (load_plugin D t s (String.mk args.dropLast) (next_free t)).slots) := by
  obtain ⟨h1, h2, h3, h4⟩ := next_free_from_spec t MAX_PLUGINS 0 (by omega)
  have hlt : next_free t < MAX_PLUGINS := by
    unfold next_free
    by_contra hge
    obtain ⟨p, hp, hz⟩ := hex
    obtain ⟨j, hj, hjp⟩ := List.getElem_of_mem hp
    obtain ⟨q, hq, hqz⟩ := h3 j (Nat.zero_le _) (by omega)
    rw [List.getElem?_eq_getElem hj, Option.some.injEq] at hq
    rw [hq] at hjp
    exact hqz (hjp ▸ hz)
  refine ⟨hlt, ?_, ?_, ?_⟩
  · exact h4 (by unfold next_free at hlt; omega)
  · intro j hj; exact h3 j (Nat.zero_le _) hj
  · intro σ D strtol s args hsep
    unfold load_command
    simp only [hsep]
    split_ifs <;> simp

/-- C4 on the table `[loaded, empty, loaded, empty]`: the scan yields 1. -/
theorem next_free_lowest_empty_witness :
    next_free mixed_slots = 1 ∧ next_free mixed_slots < MAX_PLUGINS ∧
    (∃ p, mixed_slots[next_free mixed_slots]? = some p ∧ p.handle = 0) :=
  have h := next_free_lowest_empty mixed_slots (by decide) ⟨zeroed, by decide, by decide⟩
  ⟨by decide, h.1, h.2.1⟩

/-! ## The slot invariant -/

theorem slots_ok_set (t : List plugin) (i : Nat) (q : plugin) (ht : slots_ok t)
    (hq : q.handle = 0 ↔ q.func = 0) : slots_ok (t.set i q) := by
  refine ⟨by simpa using ht.1, ?_⟩
  intro p hp
  rcases List.mem_or_eq_of_mem_set hp with h | h
  · exact ht.2 p h
  · rw [h]; exact hq

theorem unload_plugin_slots {σ : Type} (D : DL σ) (t : List plugin) (s : σ) (slot : Int) :
    (unload_plugin D t s slot).slots = t ∨
      (unload_plugin D t s slot).slots = t.set slot.toNat zeroed := by
  unfold unload_plugin
  split_ifs
  · left; rfl
  · split
    · left; rfl
    · simp only []
      split_ifs
      · left; rfl
      · left; rfl
      · right; rfl

theorem run_plugin_slots {σ : Type} (D : DL σ) (t : List plugin) (s : σ) (slot : Int) :
    (run_plugin D t s slot).slots = t := by
  unfold run_plugin
  split
  · rfl
  · simp only []
    split_ifs <;> rfl

theorem step_slots_ok {σ : Type} (D : DL σ) (w : List plugin × σ) (op : Op)
    (hw : slots_ok w.1) (hop : 0 ≤ op.slot ∧ op.slot < MAX_PLUGINS) :
    slots_ok (step D w op).1 := by
  cases op with
  | load file slot =>
    simp only [step]
    obtain ⟨-, p, hp, -⟩ := slot_at_of_range w.1 slot hw.1 hop.1 hop.2
    rcases load_plugin_ret D w.1 w.2 file slot with h0 | h1
    · rw [load_plugin_ret_zero D w.1 w.2 file slot h0]; exact hw
    · obtain ⟨q, hq, -, hqh, hqf⟩ := load_plugin_ret_one D w.1 w.2 file slot p hp h1
      rw [hq]
      exact slots_ok_set w.1 _ q hw ⟨fun h => absurd h hqh, fun h => absurd h hqf⟩
  | unload slot =>
    simp only [step]
    rcases unload_plugin_slots D w.1 w.2 slot with h | h
    · rw [h]; exact hw
    · rw [h]
      exact slots_ok_set w.1 _ zeroed hw ⟨fun _ => rfl, fun _ => rfl⟩
  | run slot =>
    simp only [step]
    rw [run_plugin_slots]; exact hw

theorem run_ops_slots_ok {σ : Type} (D : DL σ) (ops : List Op) :
    ∀ w : List plugin × σ, slots_ok w.1 →
      (∀ op ∈ ops, 0 ≤ op.slot ∧ op.slot < MAX_PLUGINS) → slots_ok (run_ops D w ops).1 := by
  induction ops with
  | nil => intro w hw _; exact hw
  | cons op ops ih =>
    intro w hw hops
    have h1 := step_slots_ok D w op hw (hops op (List.mem_cons_self _ _))
    exact ih (step D w op) h1 (fun o ho => hops o (List.mem_cons_of_mem _ ho))

/-- C2: starting from the all-zero table, after any sequence of `load_plugin`,
`unload_plugin` and `run_plugin` calls on slot numbers inside the table, with
any loader, every slot has a null handle exactly when it has a null function
pointer. -/
theorem slot_invariant {σ : Type} (D : DL σ) (s : σ) (ops : List Op)
    (hops : ∀ op ∈ ops, 0 ≤ op.slot ∧ op.slot < MAX_PLUGINS) :
    ∀ p ∈ (run_ops D (initial_slots, s) ops).1, (p.handle = 0 ↔ p.func = 0) := by
  have h0 : slots_ok (initial_slots, s).1 := by
    refine ⟨by simp [initial_slots], ?_⟩
    intro p hp
    simp only [initial_slots] at hp
    rw [List.eq_of_mem_replicate hp]
    exact ⟨fun _ => rfl, fun _ => rfl⟩
  exact (run_ops_slots_ok D ops (initial_slots, s) h0 hops).2

/-- C2 on the mock loader: a failed load, two loads, a run and an unload. -/
theorem slot_invariant_witness :
    (run_ops mockDL (initial_slots, [])
      [.load "nofunc.so" 0, .load "pluginA.so" 0, .load "long.so" 2, .run 0, .unload 0]).1 =
      [zeroed, zeroed,
        ⟨[65, 66, 67, 68, 69, 70, 71, 72, 73, 74, 75, 76, 77, 78, 79, 80], 4, 65⟩, zeroed] ∧
    ∀ p ∈ (run_ops mockDL (initial_slots, [])
      [.load "nofunc.so" 0, .load "pluginA.so" 0, .load "long.so" 2, .run 0, .unload 0]).1,
      (p.handle = 0 ↔ p.func = 0) :=
  ⟨by decide,
    slot_invariant mockDL []
      [.load "nofunc.so" 0, .load "pluginA.so" 0, .load "long.so" 2, .run 0, .unload 0]
      (by decide)⟩

/-! ## The name copy -/

theorem strncpy_bytes_nil (n : Nat) : strncpy_bytes [] n = List.replicate n 0 := by
  induction n with
  | zero => rfl
  | succ n ih => simp [strncpy_bytes, ih, List.replicate_succ]

/-- The bytes `strncpy` stores for a source without a zero byte: the first `n`
bytes of the source, then zero bytes up to `n`. -/
theorem strncpy_bytes_eq (nm : List Nat) (hz : ∀ b ∈ nm, b ≠ 0) (n : Nat) :
    strncpy_bytes nm n = nm.take n ++ List.replicate (n - min nm.length n) 0 := by
  induction nm generalizing n with
  | nil => simp [strncpy_bytes_nil]
  | cons c cs ih =>
    cases n with
    | zero => simp [strncpy_bytes]
    | succ n =>
      have hc : c ≠ 0 := hz c (List.mem_cons_self _ _)
      have hcs : ∀ b ∈ cs, b ≠ 0 := fun b hb => hz b (List.mem_cons_of_mem _ hb)
      simp only [strncpy_bytes, hc, if_false, ih hcs n, List.take_succ_cons, List.cons_append,
        List.length_cons]
      have e : n + 1 - min (cs.length + 1) (n + 1) = n - min cs.length n := by omega
      rw [e]

/-- The slot a successful `load_plugin` leaves, for a name without a zero
byte. -/
theorem load_plugin_name {σ : Type} (D : DL σ) (t : List plugin) (s s1 s2 s3 : σ)
    (file : String) (slot : Int) (p : plugin) (h f a : Nat) (nm : List Nat)
    (hp : slot_at t slot = some p) (hname : p.name.length = PLUGIN_NAME_LEN)
    (ho : D.dlopen s file = (h, s1)) (hh : h ≠ 0)
    (hf : D.dlsym s1 h "func" = (f, s2)) (hfn : f ≠ 0)
    (hn : D.dlsym s2 h "plugin_name" = (a, s3)) (han : a ≠ 0)
    (hs : D.cstr s3 a = nm) (hz : ∀ b ∈ nm, b ≠ 0) :
    (load_plugin D t s file slot).ret = 1 ∧
    (load_plugin D t s file slot).slots[slot.toNat]? =
      some ⟨nm.take PLUGIN_NAME_LEN ++
        List.replicate (PLUGIN_NAME_LEN - min nm.length PLUGIN_NAME_LEN) 0, h, f⟩ := by
  rw [load_plugin_success D t s s1 s2 s3 file slot p h f a hp ho hh hf hfn hn han]
  refine ⟨rfl, ?_⟩
  have hlt := (slot_at_some t slot p hp).2.1
  simp only [List.getElem?_set_self hlt, Option.some.injEq, plugin.mk.injEq, and_true]
  rw [hs]
  unfold strncpy memset
  rw [strncpy_bytes_eq nm hz]
  have hd : List.drop PLUGIN_NAME_LEN
      (List.replicate PLUGIN_NAME_LEN 0 ++ List.drop PLUGIN_NAME_LEN p.name) = [] := by
    simp [List.drop_append_eq_append_drop, hname]
  rw [hd, List.append_nil]

/-- C8: after a successful `load_plugin` into a slot `slot` of the table
(`slot_at t slot = some p`), whatever 16 bytes the `name` field held, the field holds the first `min (length s) 16`
bytes of the resolved name `s` (no zero byte in `s`) followed by zero bytes up
to 16; when `s` has 16 bytes or more the field is the first 16 bytes of `s` and
has no zero byte in it; the slot's handle is not null. -/
theorem load_plugin_name_copy {σ : Type} (D : DL σ) (t : List plugin) (s s1 s2 s3 : σ)
    (file : String) (slot : Int) (p : plugin) (h f a : Nat) (nm : List Nat)
    (hp : slot_at t slot = some p) (hname : p.name.length = PLUGIN_NAME_LEN)
    (ho : D.dlopen s file = (h, s1)) (hh : h ≠ 0)
    (hf : D.dlsym s1 h "func" = (f, s2)) (hfn : f ≠ 0)
    (hn : D.dlsym s2 h "plugin_name" = (a, s3)) (han : a ≠ 0)
    (hs : D.cstr s3 a = nm) (hz : ∀ b ∈ nm, b ≠ 0) :
    (load_plugin D t s file slot).ret = 1 ∧
    ∃ q, (load_plugin D t s file slot).slots[slot.toNat]? = some q ∧
      q.name = nm.take PLUGIN_NAME_LEN ++
        List.replicate (PLUGIN_NAME_LEN - min nm.length PLUGIN_NAME_LEN) 0 ∧
      q.name.length = PLUGIN_NAME_LEN ∧
      (PLUGIN_NAME_LEN ≤ nm.length → q.name = nm.take PLUGIN_NAME_LEN ∧ 0 ∉ q.name) ∧
      q.handle ≠ 0 := by
  obtain ⟨hr, hq⟩ := load_plugin_name D t s s1 s2 s3 file slot p h f a nm hp hname
    ho hh hf hfn hn han hs hz
  refine ⟨hr, _, hq, rfl, ?_, ?_, hh⟩
  · simp only [List.length_append, List.length_take, List.length_replicate]
    omega
  · intro hge
    have e : PLUGIN_NAME_LEN - min nm.length PLUGIN_NAME_LEN = 0 := by omega
    simp only [e, List.replicate_zero, List.append_nil, true_and]
    intro hmem
    exact hz 0 (List.mem_of_mem_take hmem) rfl

/-- C8 on the mock loader: the 18 byte name of `long.so` into slot 2 of
`[loaded, empty, loaded, empty]`, whose `name` held sixteen bytes `x`. -/
theorem load_plugin_name_copy_witness :
    (load_plugin mockDL mixed_slots [] "long.so" 2).ret = 1 ∧
    ∃ q, (load_plugin mockDL mixed_slots [] "long.so" 2).slots[2]? = some q ∧
      q.name = [65, 66, 67, 68, 69, 70, 71, 72, 73, 74, 75, 76, 77, 78, 79, 80] ∧
      q.handle ≠ 0 :=
  have h := load_plugin_name_copy mockDL mixed_slots [] [4] [4] [4] "long.so" 2 (loaded 4)
    4 65 66 [65, 66, 67, 68, 69, 70, 71, 72, 73, 74, 75, 76, 77, 78, 79, 80, 81, 82]
    (by decide) (by decide) (by decide) (by decide) (by decide) (by decide) (by decide)
    (by decide) (by decide) (by decide)
  ⟨h.1, h.2.choose, h.2.choose_spec.1, h.2.choose_spec.2.1, h.2.choose_spec.2.2.2.2⟩

/-- C10 fails as stated: `long.so` has an 18 byte name, and after its load
into slot 0 byte 15 of the `name` field is the sixteenth byte of that name, 80,
not zero. -/
theorem name_copy_last_byte_counterexample :
    (load_plugin mockDL initial_slots [] "long.so" 0).ret = 1 ∧
    ∃ q, (load_plugin mockDL initial_slots [] "long.so" 0).slots[0]? = some q ∧
      q.name[15]? = some 80 ∧ q.name[15]? ≠ some 0 :=
  ⟨by decide,
    ⟨[65, 66, 67, 68, 69, 70, 71, 72, 73, 74, 75, 76, 77, 78, 79, 80], 4, 65⟩,
    by decide, by decide, by decide⟩

/-- C10 as amended: a successful `load_plugin` into a slot of the table copies at most 16 bytes of the
resolved name `s` (no zero byte in `s`) into the 16 byte `name` field: the
first `min (length s) 16` bytes of the field are those of `s`, and byte 15 of
the field is zero exactly when `s` has at most 15 bytes. -/
theorem load_plugin_name_bound {σ : Type} (D : DL σ) (t : List plugin) (s s1 s2 s3 : σ)
    (file : String) (slot : Int) (p : plugin) (h f a : Nat) (nm : List Nat)
    (hp : slot_at t slot = some p) (hname : p.name.length = PLUGIN_NAME_LEN)
    (ho : D.dlopen s file = (h, s1)) (hh : h ≠ 0)
    (hf : D.dlsym s1 h "func" = (f, s2)) (hfn : f ≠ 0)
    (hn : D.dlsym s2 h "plugin_name" = (a, s3)) (han : a ≠ 0)
    (hs : D.cstr s3 a = nm) (hz : ∀ b ∈ nm, b ≠ 0) :
    (load_plugin D t s file slot).ret = 1 ∧
    ∃ q, (load_plugin D t s file slot).slots[slot.toNat]? = some q ∧
      q.name.length = PLUGIN_NAME_LEN ∧
      (∀ k, k < min nm.length PLUGIN_NAME_LEN → q.name[k]? = nm[k]?) ∧
      (q.name[PLUGIN_NAME_LEN - 1]? = some 0 ↔ nm.length ≤ PLUGIN_NAME_LEN - 1) := by
  obtain ⟨hr, hq⟩ := load_plugin_name D t s s1 s2 s3 file slot p h f a nm hp hname
    ho hh hf hfn hn han hs hz
  refine ⟨hr, _, hq, ?_, ?_, ?_⟩
  · simp only [List.length_append, List.length_take, List.length_replicate]
    omega
  · intro k hk
    have hk1 : k < (nm.take PLUGIN_NAME_LEN).length := by
      simp only [List.length_take]; omega
    simp only []
    rw [List.getElem?_append_left hk1, List.getElem?_take_of_lt (by omega)]
  · simp only []
    constructor
    · intro h15
      by_contra hgt
      have hk1 : PLUGIN_NAME_LEN - 1 < (nm.take PLUGIN_NAME_LEN).length := by
        simp only [List.length_take, PLUGIN_NAME_LEN] at hgt ⊢; omega
      rw [List.getElem?_append_left hk1,
        List.getElem?_take_of_lt (by simp [PLUGIN_NAME_LEN])] at h15
      exact hz 0 (List.getElem?_mem h15) rfl
    · intro hle
      have hk1 : (nm.take PLUGIN_NAME_LEN).length ≤ PLUGIN_NAME_LEN - 1 := by
        simp only [List.length_take]; omega
      rw [List.getElem?_append_right hk1]
      simp only [List.length_take, List.getElem?_replicate]
      rw [if_pos]
      simp only [PLUGIN_NAME_LEN] at hle ⊢
      omega

/-- C10 as amended, on the mock loader: the 7 byte name of `pluginA.so`. -/
theorem load_plugin_name_bound_witness :
    (load_plugin mockDL mixed_slots [] "pluginA.so" 1).ret = 1 ∧
    ∃ q, (load_plugin mockDL mixed_slots [] "pluginA.so" 1).slots[1]? = some q ∧
      q.name.length = PLUGIN_NAME_LEN ∧ q.name[PLUGIN_NAME_LEN - 1]? = some 0 :=
  have h := load_plugin_name_bound mockDL mixed_slots [] [1] [1] [1] "pluginA.so" 1 zeroed
    1 17 18 [80, 108, 117, 103, 105, 110, 65]
    (by decide) (by decide) (by decide) (by decide) (by decide) (by decide) (by decide)
    (by decide) (by decide) (by decide)
  ⟨h.1, h.2.choose, h.2.choose_spec.1, h.2.choose_spec.2.1,
    h.2.choose_spec.2.2.2.2 (by decide)⟩

/-! ## Slot numbers outside the table -/

/-- C3 does not hold for `load_plugin` and `run_plugin`: with slot number 4
`load_plugin` calls `dlopen` and reports the open failure of a missing file,
and for a file that loads goes on to store outside the table, for slot 4 as
for slot -1; `run_plugin` reads outside the table; neither prints the
invalid-slot line.  Only `unload_plugin` rejects the slot number. -/
theorem out_of_range_slot_not_rejected :
    (load_plugin mockDL initial_slots [] "missing.so" 4).log =
      [.dlopen "missing.so" 0, .dlerror "dl error",
        .print (.openFailed "missing.so" "dl error")] ∧
    (load_plugin mockDL initial_slots [] "pluginA.so" 4).log =
      [.dlopen "pluginA.so" 1, .dlsym 1 "func" 17, .dlsym 1 "plugin_name" 18, .oob 4] ∧
    (load_plugin mockDL initial_slots [] "pluginA.so" (-1)).log =
      [.dlopen "pluginA.so" 1, .dlsym 1 "func" 17, .dlsym 1 "plugin_name" 18, .oob (-1)] ∧
    (run_plugin mockDL initial_slots [] 4).log = [.oob 4] ∧
    (unload_plugin mockDL initial_slots [] 4).log = [.print (.invalidSlot 4)] ∧
    (unload_plugin mockDL initial_slots [] (-1)).log = [.print (.invalidSlot (-1))] := by
  decide

/-- C5 does not hold: on a table with no null handle the scan of
`load_command` ends with `i = MAX_PLUGINS = 4`, and `load_command` announces
slot 4 and calls `load_plugin` on it, which opens the file, resolves both
symbols and stores outside the table. -/
theorem load_command_full_table :
    next_free full_slots = 4 ∧
    (load_command mockDL (fun _ => 0) full_slots [1, 4, 1, 4]
        (String.toList "pluginA.so\n")).log =
      [.print (.willLoad "pluginA.so" 4), .dlopen "pluginA.so" 1, .dlsym 1 "func" 17,
        .dlsym 1 "plugin_name" 18, .oob 4] ∧
    opens (load_command mockDL (fun _ => 0) full_slots [1, 4, 1, 4]
        (String.toList "pluginA.so\n")).log = 1 := by
  decide

end DlDriver
